import Mathlib

/-!
# Verification of `headposeimg.c` (DeepViewML/headposeimg)

Shallow embedding of the single source file `src/headposeimg.c`, a
command-line sample that chains a face-detection inference session and a
head-pose inference session supplied by the external VAAL library.

The program is pure orchestration: it parses CLI options, creates sessions,
loops over images (and over detected boxes per image), prints results, and
returns an exit status.  We embed it as a function from
  * the list of parsed CLI options (the result of `getopt_long`, whose
    tokenisation is libc's; the `switch` body is modelled faithfully),
  * the remaining positional arguments (`argv[optind..]`), and
  * an oracle `Env` giving the return values of every external VAAL call,
to a pair of the process exit status and the ordered trace of observable
events (prints, session creation, parameter sets, loads, runs, releases).
-/

namespace Headposeimg

/-! ## Constants from the external `vaal.h` header

The numeric values of the normalization enum are not in this repository;
only `0` ("raw") is used literally by the source.  The others are kept as
distinct symbolic nonzero values. -/

def VAAL_IMAGE_PROC_SIGNED_NORM : Int := 1
def VAAL_IMAGE_PROC_UNSIGNED_NORM : Int := 2
def VAAL_IMAGE_PROC_WHITENING : Int := 3
def VAAL_IMAGE_PROC_IMAGENET : Int := 4

/-- Modelled from the spec: the `MAX` macro used at `max_detection = MAX(atoi(optarg), 1)`
is not in `src/` (it comes from a library header); the spec states the effective
value is the input with a minimum enforced floor of 1. -/
def MAX (a b : Int) : Int := if a > b then a else b

/-- Modelled from the spec: `MIN` companion of the `CLAMP` macro (not in `src/`). -/
def MINr (a b : Rat) : Rat := if a < b then a else b

/-- Modelled from the spec: `MAX` over floats, used by `CLAMP` (not in `src/`). -/
def MAXr (a b : Rat) : Rat := if a > b then a else b

/-- Modelled from the spec: the `CLAMP` macro used for `-t` and `-u`
(`CLAMP(atof(optarg), 0.0f, 1.0f)`) is not in `src/`; the spec states the
effective threshold is the input clamped into `[lo, hi]`. -/
def CLAMP (x lo hi : Rat) : Rat := MINr (MAXr x lo) hi

/-- C cast `(int32_t)` of a float value: truncation toward zero.
Used for the ROI denormalization `roi[k] = (int32_t)(box->xmin * (float)w)`. -/
def truncToInt (q : Rat) : Int := Int.tdiv q.num (q.den : Int)

/-! ## Data model -/

/-- `VAALBox`: four normalized corner coordinates and a confidence score. -/
structure VAALBox where
  xmin : Rat
  ymin : Rat
  xmax : Rat
  ymax : Rat
  score : Rat
deriving Repr, DecidableEq

/-- The configuration assembled by the argument-processing loop
(`main` locals, lines 60-68 of `headposeimg.c`). -/
structure Config where
  max_detection : Int
  score_thr : Rat
  iou_thr : Rat
  engine : String
  norm : Int
  face_detect : Bool
deriving Repr, DecidableEq

/-- Initial values of the `main` locals (lines 61-68). -/
def defaultConfig : Config :=
  { max_detection := 25
    score_thr := 1/2
    iou_thr := 1/2
    engine := "npu"
    norm := 0
    face_detect := true }

/-- One option event produced by `getopt_long` and consumed by the `switch`
(lines 87-133).  The numeric payloads are the `atoi` / `atof` results of the
option argument; `invalid` is getopt's unknown-flag result. -/
inductive CliOpt where
  | help
  | version
  | noDetect
  | maxDetection (v : Int)
  | threshold (v : Rat)
  | iou (v : Rat)
  | norm (s : String)
  | engine (s : String)
  | invalid (c : Char)
deriving Repr, DecidableEq

/-- Observable events of a run: prints (stdout diagnostics/results, stderr
error reports), external-library calls, and resource acquisition/release.
Session 0 is `pose_ctx`, session 1 is `faces_ctx`. -/
inductive Event where
  | stdoutMsg (s : String)
  | fail (s : String)
  | allocBuffer (name : String)
  | createContext (ctx : Nat)
  | loadModel (path : String)
  | setParamI (ctx : Nat) (name : String) (v : Int)
  | setParamF (ctx : Nat) (name : String) (v : Rat)
  | queryResolution (image : String)
  | loadImage (ctx : Nat) (image : String) (roi : Option (Int × Int × Int × Int))
  | runModel (ctx : Nat)
  | getBoxes (ctx : Nat) (capacity : Int)
  | getEuler (ctx : Nat)
  | resultLine (image : String) (boxIdx : Option Nat)
  | releaseContext (ctx : Nat)
  | freeBuffer (name : String)
deriving Repr, DecidableEq

/-- Oracle for the external VAAL library: the return value of every call the
program makes.  Per-image calls are indexed by the image path; per-box pose
calls additionally by the box index (`none` = whole-image load in
single-stage mode). -/
structure Env where
  /-- `vaal_load_model_file(pose_ctx, model)` result. -/
  loadModelErr : Int
  /-- whether `vaal_model_probe(engine, model_type_face_detection)` returns a context. -/
  probeSucceeds : Bool
  /-- `vaal_image_file_resolution`: (width, height). -/
  resolution : String → Int × Int
  /-- `vaal_load_image_file(faces_ctx, ...)` result per image. -/
  faceLoadErr : String → Int
  /-- `vaal_run_model(faces_ctx)` result per image (assigned to `err` at line 195,
  overwritten unchecked by the `vaal_boxes` call at line 196). -/
  faceRunErr : String → Int
  /-- boxes written by `vaal_boxes(faces_ctx, boxes, capacity, &num_boxes)`;
  the library contract is that at most `capacity` boxes are reported. -/
  faceBoxes : String → Int → List VAALBox
  /-- `vaal_boxes` error result (assigned to `err`, never checked). -/
  boxesErr : String → Int
  /-- `vaal_load_image_file(pose_ctx, ...)` result, per image and box index. -/
  poseLoadErr : String → Option Nat → Int
  /-- `vaal_run_model(pose_ctx)` result, per image and box index. -/
  poseRunErr : String → Option Nat → Int
  /-- whether `vaal_euler(pose_ctx, ...)` returns 0 (success). -/
  eulerOk : String → Option Nat → Bool

/-! ## Argument processing (lines 82-134) -/

/-- The `-n` normalization string dispatch (lines 105-120): the five accepted
strings map to their enum value, anything else is rejected. -/
def parseNorm (s : String) : Option Int :=
  if s = "raw" then some 0
  else if s = "signed" then some VAAL_IMAGE_PROC_SIGNED_NORM
  else if s = "unsigned" then some VAAL_IMAGE_PROC_UNSIGNED_NORM
  else if s = "whitening" then some VAAL_IMAGE_PROC_WHITENING
  else if s = "imagenet" then some VAAL_IMAGE_PROC_IMAGENET
  else none

/-- One iteration of the option `switch` (lines 87-133).
`Sum.inl (code, events)` is an early `return` from `main`;
`Sum.inr cfg` continues with the updated locals. -/
def applyOpt (cfg : Config) (o : CliOpt) : Sum (Nat × List Event) Config :=
  match o with
  | CliOpt.help => Sum.inl (0, [Event.stdoutMsg "usage"])
  | CliOpt.version => Sum.inl (0, [Event.stdoutMsg "version"])
  | CliOpt.maxDetection v => Sum.inr { cfg with max_detection := MAX v 1 }
  | CliOpt.threshold v => Sum.inr { cfg with score_thr := CLAMP v 0 1 }
  | CliOpt.iou v => Sum.inr { cfg with iou_thr := CLAMP v 0 1 }
  | CliOpt.norm s =>
      match parseNorm s with
      | some n => Sum.inr { cfg with norm := n }
      | none => Sum.inl (1, [Event.fail ("unsupported image normalization method: " ++ s)])
  | CliOpt.engine s => Sum.inr { cfg with engine := s }
  | CliOpt.noDetect => Sum.inr { cfg with face_detect := false }
  | CliOpt.invalid c => Sum.inl (1, [Event.fail ("invalid parameter " ++ String.mk [c] ++ ", try --help for usage")])

/-- The whole `for (;;) { getopt_long ... switch }` loop. -/
def processOpts : Config → List CliOpt → Sum (Nat × List Event) Config
  | cfg, [] => Sum.inr cfg
  | cfg, o :: rest =>
      match applyOpt cfg o with
      | Sum.inl r => Sum.inl r
      | Sum.inr cfg' => processOpts cfg' rest

/-! ## Image processing loop (lines 176-275) -/

/-- Body of the per-box loop (lines 197-238): denormalize ROI, load the crop
into the pose session, run it, decode one orientation, print the box line.
Checked failures return `some 1` (EXIT_FAILURE / `return 1`). -/
def processBox (env : Env) (image : String) (w h : Int) (j : Nat) (box : VAALBox) :
    List Event × Option Nat :=
  let roi0 := truncToInt (box.xmin * (w : Rat))
  let roi1 := truncToInt (box.ymin * (h : Rat))
  let roi2 := truncToInt (box.xmax * (w : Rat))
  let roi3 := truncToInt (box.ymax * (h : Rat))
  let ev1 := Event.loadImage 0 image (some (roi0, roi1, roi2, roi3))
  if env.poseLoadErr image (some j) ≠ 0 then
    ([ev1, Event.fail ("failed to load " ++ image)], some 1)
  else if env.poseRunErr image (some j) ≠ 0 then
    ([ev1, Event.runModel 0, Event.fail "failed to run model"], some 1)
  else if env.eulerOk image (some j) = false then
    ([ev1, Event.runModel 0, Event.getEuler 0, Event.fail "Head pose decode failed."], some 1)
  else
    ([ev1, Event.runModel 0, Event.getEuler 0, Event.resultLine image (some j)], none)

/-- The `for (size_t j = 0; j < num_boxes; j++)` loop over the boxes the
library reported, starting at index `j`. -/
def processBoxes (env : Env) (image : String) (w h : Int) :
    Nat → List VAALBox → List Event × Option Nat
  | _, [] => ([], none)
  | j, b :: rest =>
      match processBox env image w h j b with
      | (evs, some c) => (evs, some c)
      | (evs, none) =>
          let r := processBoxes env image w h (j + 1) rest
          (evs ++ r.1, r.2)

/-- Two-stage branch of the image loop (lines 181-238): header print,
resolution query, face-session load (checked), face-session run (its error
is assigned to `err` at line 195 but immediately overwritten, unchecked, by
the `vaal_boxes` result at line 196, itself also unchecked), box retrieval
with capacity `max_detection`, then the per-box loop. -/
def processImageFace (env : Env) (cfg : Config) (image : String) :
    List Event × Option Nat :=
  let wh := env.resolution image
  let pre := [Event.stdoutMsg "  [box] (scr%): xmin ymin xmax ymax   yaw    pitch   roll",
              Event.queryResolution image,
              Event.stdoutMsg "Width Height",
              Event.loadImage 1 image none]
  if env.faceLoadErr image ≠ 0 then
    (pre ++ [Event.fail ("failed to load " ++ image)], some 1)
  else
    -- line 195: err = vaal_run_model(faces_ctx);  -- overwritten at line 196
    -- line 196: err = vaal_boxes(faces_ctx, boxes, max_detection, &num_boxes);
    let _errRun := env.faceRunErr image
    let _errBoxes := env.boxesErr image
    let boxes := env.faceBoxes image cfg.max_detection
    let r := processBoxes env image wh.1 wh.2 0 boxes
    (pre ++ [Event.runModel 1, Event.getBoxes 1 cfg.max_detection] ++ r.1, r.2)

/-- Single-stage branch of the image loop (lines 239-274): full-image load
into the pose session, run, decode, print timings and angles. -/
def processImageSingle (env : Env) (image : String) : List Event × Option Nat :=
  let ev1 := Event.loadImage 0 image none
  if env.poseLoadErr image none ≠ 0 then
    ([ev1, Event.fail ("failed to load " ++ image)], some 1)
  else if env.poseRunErr image none ≠ 0 then
    ([ev1, Event.runModel 0, Event.fail "failed to run model"], some 1)
  else if env.eulerOk image none = false then
    ([ev1, Event.runModel 0, Event.getEuler 0, Event.fail "Head pose decode failed."], some 1)
  else
    ([ev1, Event.runModel 0, Event.getEuler 0, Event.resultLine image none], none)

/-- One iteration of the image loop: the `if (face_detect)` dispatch (line 181). -/
def processImage (env : Env) (cfg : Config) (image : String) : List Event × Option Nat :=
  if cfg.face_detect then processImageFace env cfg image
  else processImageSingle env image

/-- The `for (int i = optind; i < argc; i++)` image loop (line 176). -/
def processImages (env : Env) (cfg : Config) : List String → List Event × Option Nat
  | [] => ([], none)
  | img :: rest =>
      match processImage env cfg img with
      | (evs, some c) => (evs, some c)
      | (evs, none) =>
          let r := processImages env cfg rest
          (evs ++ r.1, r.2)

/-! ## Startup, probe, and shutdown (lines 144-173 and 277-285) -/

/-- Diagnostic printed when the face-detection probe fails (line 170). -/
def noFaceDiag : String :=
  "Unable to locate face detection model, please ensure VAAL_MODEL_PATH has been set."

/-- Diagnostic printed when the face-detection probe succeeds (line 162). -/
def foundFaceDiag : String := "Found face detection model, running two step pipeline."

/-- stderr message for a missing positional model argument (line 137). -/
def missingModelMsg : String := "missing required model, try --help for usage"

/-- The effective configuration after the probe block (lines 158-173):
`face_detect` is cleared when the probe returns no context. -/
def effConfig (cfg : Config) (env : Env) : Config :=
  if cfg.face_detect && !env.probeSucceeds then { cfg with face_detect := false } else cfg

/-- Events of the probe block (lines 158-173): on success, the probed session
exists, the found-diagnostic is printed and the four NMS/normalization
parameters are set (lines 165-168, `faces_norm = 0`); on failure only the
degraded-mode diagnostic is printed. -/
def probeEvents (cfg : Config) (env : Env) : List Event :=
  if cfg.face_detect then
    if env.probeSucceeds then
      [Event.createContext 1,
       Event.stdoutMsg foundFaceDiag,
       Event.setParamI 1 "max_detection" cfg.max_detection,
       Event.setParamF 1 "score_threshold" cfg.score_thr,
       Event.setParamF 1 "iou_threshold" cfg.iou_thr,
       Event.setParamI 1 "normalization" 0]
    else
      [Event.stdoutMsg noFaceDiag]
  else []

/-- The shutdown block (lines 277-283): release `faces_ctx` when in face mode,
release `pose_ctx`, then free the three buffers in their allocation order. -/
def releaseSeq (face : Bool) : List Event :=
  (if face then [Event.releaseContext 1] else []) ++
  [Event.releaseContext 0,
   Event.freeBuffer "boxes",
   Event.freeBuffer "orientations",
   Event.freeBuffer "roi"]

/-- Buffer allocations (lines 146-148), pose-session creation (line 150) and
model load (line 151), in program order. -/
def allocEvents (model : String) : List Event :=
  [Event.allocBuffer "boxes", Event.allocBuffer "orientations",
   Event.allocBuffer "roi", Event.createContext 0, Event.loadModel model]

/-- Full successful-startup prefix: allocations, pose session, model load,
pose normalization parameter (line 156), probe block (lines 158-173). -/
def setupEvents (cfg : Config) (env : Env) (model : String) : List Event :=
  allocEvents model ++ [Event.setParamI 0 "normalization" cfg.norm] ++ probeEvents cfg env

/-- Everything after the positional-argument check (lines 144-285): buffer
allocation, pose-session creation and model load (checked), pose
normalization parameter, face probe, image loop, shutdown. -/
def setupAndRun (env : Env) (cfg : Config) (model : String) (images : List String) :
    Nat × List Event :=
  if env.loadModelErr ≠ 0 then
    (1, allocEvents model ++ [Event.fail "failed to load model"])
  else
    match processImages env (effConfig cfg env) images with
    | (evs, some c) => (c, setupEvents cfg env model ++ evs)
    | (evs, none) =>
        (0, setupEvents cfg env model ++ evs ++ releaseSeq (effConfig cfg env).face_detect)

/-- The whole of `main`: option processing, positional-argument check
(line 136), then setup/loop/shutdown.  Returns the exit status and the
event trace. -/
def runMain (opts : List CliOpt) (args : List String) (env : Env) : Nat × List Event :=
  match processOpts defaultConfig opts with
  | Sum.inl r => r
  | Sum.inr cfg =>
      match args with
      | [] => (1, [Event.fail missingModelMsg])
      | model :: images => setupAndRun env cfg model images

/-! ## Trace predicates -/

/-- Is the event a stderr error report? -/
def isFail : Event → Bool
  | Event.fail _ => true
  | _ => false

/-- Is the event a resource release (session release or buffer free)? -/
def isRelease : Event → Bool
  | Event.releaseContext _ => true
  | Event.freeBuffer _ => true
  | _ => false

/-- Does the event involve the face-detection session (session 1)? -/
def usesFaceCtx : Event → Bool
  | Event.createContext c => c == 1
  | Event.setParamI c _ _ => c == 1
  | Event.setParamF c _ _ => c == 1
  | Event.loadImage c _ _ => c == 1
  | Event.runModel c => c == 1
  | Event.getBoxes c _ => c == 1
  | Event.getEuler c => c == 1
  | Event.releaseContext c => c == 1
  | _ => false

/-- Is the event a session creation or an image load (used to state that a
usage error occurs before any session is created or image processed)? -/
def isSessionOrImage : Event → Bool
  | Event.createContext _ => true
  | Event.loadModel _ => true
  | Event.loadImage _ _ _ => true
  | Event.runModel _ => true
  | Event.resultLine _ _ => true
  | _ => false

/-- Is the event a parameter set? -/
def isSetParam : Event → Bool
  | Event.setParamI _ _ _ => true
  | Event.setParamF _ _ _ => true
  | _ => false

/-- Is the event a per-box or per-image result line? -/
def isResultLine : Event → Bool
  | Event.resultLine _ _ => true
  | _ => false

/-- An all-success oracle used to exercise concrete runs. -/
def envAllOk : Env :=
  { loadModelErr := 0
    probeSucceeds := true
    resolution := fun _ => (640, 480)
    faceLoadErr := fun _ => 0
    faceRunErr := fun _ => 0
    faceBoxes := fun _ _ => [⟨0, 0, 1/2, 1/2, 9/10⟩]
    boxesErr := fun _ => 0
    poseLoadErr := fun _ _ => 0
    poseRunErr := fun _ _ => 0
    eulerOk := fun _ _ => true }

example :
    (runMain [] ["m", "img"] envAllOk).1 = 0 := by decide

example :
    Event.resultLine "img" (some 0) ∈ (runMain [] ["m", "img"] envAllOk).2 := by decide

/-! ## Failure / exit-status characterization -/

/-- A trace/outcome pair is fail-consistent when an early exit (always with
status 1) happens exactly when a stderr error report is in the trace. -/
def FailConsistent (p : List Event × Option Nat) : Prop :=
  (p.2 = none ∧ p.1.any isFail = false) ∨ (p.2 = some 1 ∧ p.1.any isFail = true)

lemma processBox_failConsistent (env : Env) (image : String) (w h : Int) (j : Nat)
    (b : VAALBox) : FailConsistent (processBox env image w h j b) := by
  unfold FailConsistent processBox
  split_ifs <;> simp [isFail]

lemma processBoxes_failConsistent (env : Env) (image : String) (w h : Int) :
    ∀ (bs : List VAALBox) (j : Nat), FailConsistent (processBoxes env image w h j bs) := by
  intro bs
  induction bs with
  | nil => intro j; simp [processBoxes, FailConsistent]
  | cons b rest ih =>
      intro j
      have hb := processBox_failConsistent env image w h j b
      rcases hbeq : processBox env image w h j b with ⟨evs, r⟩
      rw [hbeq] at hb
      cases r with
      | some c =>
          rcases hb with ⟨hnone, _⟩ | ⟨hsome, hany⟩
          · exact absurd hnone (by simp)
          · have hc : c = 1 := by simpa using hsome
            subst hc
            simp only [processBoxes, hbeq]
            exact Or.inr ⟨rfl, hany⟩
      | none =>
          rcases hb with ⟨_, hany⟩ | ⟨hsome, _⟩
          · have := ih (j + 1)
            rcases hr : processBoxes env image w h (j + 1) rest with ⟨evs', r'⟩
            rw [hr] at this
            simp only [processBoxes, hbeq, hr]
            rcases this with ⟨h1, h2⟩ | ⟨h1, h2⟩
            · exact Or.inl ⟨h1, by simp [List.any_append, hany, h2]⟩
            · exact Or.inr ⟨h1, by simp [List.any_append, h2]⟩
          · exact absurd hsome (by simp)

lemma processImageSingle_failConsistent (env : Env) (image : String) :
    FailConsistent (processImageSingle env image) := by
  unfold FailConsistent processImageSingle
  split_ifs <;> simp [isFail]

lemma processImageFace_failConsistent (env : Env) (cfg : Config) (image : String) :
    FailConsistent (processImageFace env cfg image) := by
  unfold processImageFace
  split_ifs with h1
  · exact Or.inr ⟨rfl, by simp [isFail]⟩
  · have hb := processBoxes_failConsistent env image (env.resolution image).1
      (env.resolution image).2 (env.faceBoxes image cfg.max_detection) 0
    rcases hr : processBoxes env image (env.resolution image).1 (env.resolution image).2 0
        (env.faceBoxes image cfg.max_detection) with ⟨evs, r⟩
    rw [hr] at hb
    simp only [hr]
    rcases hb with ⟨h1, h2⟩ | ⟨h1, h2⟩
    · exact Or.inl ⟨h1, by simp [List.any_append, isFail, h2]⟩
    · exact Or.inr ⟨h1, by simp [List.any_append, h2]⟩

lemma processImage_failConsistent (env : Env) (cfg : Config) (image : String) :
    FailConsistent (processImage env cfg image) := by
  unfold processImage
  split_ifs
  · exact processImageFace_failConsistent env cfg image
  · exact processImageSingle_failConsistent env image

lemma processImages_failConsistent (env : Env) (cfg : Config) :
    ∀ imgs : List String, FailConsistent (processImages env cfg imgs) := by
  intro imgs
  induction imgs with
  | nil => simp [processImages, FailConsistent]
  | cons img rest ih =>
      have hi := processImage_failConsistent env cfg img
      rcases hieq : processImage env cfg img with ⟨evs, r⟩
      rw [hieq] at hi
      cases r with
      | some c =>
          rcases hi with ⟨hnone, _⟩ | ⟨hsome, hany⟩
          · exact absurd hnone (by simp)
          · have hc : c = 1 := by simpa using hsome
            subst hc
            simp only [processImages, hieq]
            exact Or.inr ⟨rfl, hany⟩
      | none =>
          rcases hi with ⟨_, hany⟩ | ⟨hsome, _⟩
          · rcases hr : processImages env cfg rest with ⟨evs', r'⟩
            rw [hr] at ih
            simp only [processImages, hieq, hr]
            rcases ih with ⟨h1, h2⟩ | ⟨h1, h2⟩
            · exact Or.inl ⟨h1, by simp [List.any_append, hany, h2]⟩
            · exact Or.inr ⟨h1, by simp [List.any_append, h2]⟩
          · exact absurd hsome (by simp)

/-- The shape of an early `return` taken inside the option loop. -/
lemma processOpts_inl_shape (opts : List CliOpt) :
    ∀ (cfg : Config) (c : Nat) (evs : List Event),
    processOpts cfg opts = Sum.inl (c, evs) →
    (c = 0 ∧ evs = [Event.stdoutMsg "usage"]) ∨
    (c = 0 ∧ evs = [Event.stdoutMsg "version"]) ∨
    (∃ s, c = 1 ∧ evs = [Event.fail s]) := by
  induction opts with
  | nil => intro cfg c evs h; simp [processOpts] at h
  | cons o rest ih =>
      intro cfg c evs h
      rcases ha : applyOpt cfg o with r | cfg'
      · rw [processOpts, ha] at h
        cases o <;> simp only [applyOpt] at ha
        case help => rcases h with h; cases ha; cases h; exact Or.inl ⟨rfl, rfl⟩
        case version => cases ha; cases h; exact Or.inr (Or.inl ⟨rfl, rfl⟩)
        case maxDetection v => cases ha
        case threshold v => cases ha
        case iou v => cases ha
        case engine s => cases ha
        case noDetect => cases ha
        case invalid ch =>
            cases ha; cases h
            exact Or.inr (Or.inr ⟨_, rfl, rfl⟩)
        case norm s =>
            rcases hn : parseNorm s with _ | n <;> rw [hn] at ha
            · cases ha; cases h
              exact Or.inr (Or.inr ⟨_, rfl, rfl⟩)
            · cases ha
      · rw [processOpts, ha] at h
        exact ih cfg' c evs h

lemma probeEvents_no_fail (cfg : Config) (env : Env) :
    (probeEvents cfg env).any isFail = false := by
  unfold probeEvents
  split_ifs <;> simp [isFail]

lemma releaseSeq_no_fail (face : Bool) : (releaseSeq face).any isFail = false := by
  cases face <;> simp [releaseSeq, isFail]

/-- `env` with the face-detection `vaal_run_model` result replaced. -/
def setFaceRunErr (env : Env) (f : String → Int) : Env := { env with faceRunErr := f }

lemma processBoxes_setFaceRunErr (env : Env) (f : String → Int) (image : String)
    (w h : Int) : ∀ (bs : List VAALBox) (j : Nat),
    processBoxes (setFaceRunErr env f) image w h j bs = processBoxes env image w h j bs := by
  intro bs
  induction bs with
  | nil => intro j; rfl
  | cons b rest ih =>
      intro j
      have hb : processBox (setFaceRunErr env f) image w h j b
          = processBox env image w h j b := rfl
      simp only [processBoxes, hb, ih]

lemma processImageFace_setFaceRunErr (env : Env) (f : String → Int) (cfg : Config)
    (image : String) :
    processImageFace (setFaceRunErr env f) cfg image = processImageFace env cfg image := by
  simp only [processImageFace, processBoxes_setFaceRunErr]
  rfl

lemma processImages_setFaceRunErr (env : Env) (f : String → Int) (cfg : Config) :
    ∀ imgs : List String,
    processImages (setFaceRunErr env f) cfg imgs = processImages env cfg imgs := by
  intro imgs
  induction imgs with
  | nil => rfl
  | cons img rest ih =>
      have hi : processImage (setFaceRunErr env f) cfg img = processImage env cfg img := by
        unfold processImage
        split_ifs
        · exact processImageFace_setFaceRunErr env f cfg img
        · rfl
      simp only [processImages, hi, ih]

lemma setupAndRun_setFaceRunErr (env : Env) (f : String → Int) (cfg : Config)
    (model : String) (images : List String) :
    setupAndRun (setFaceRunErr env f) cfg model images = setupAndRun env cfg model images := by
  simp only [setupAndRun, processImages_setFaceRunErr]
  rfl

lemma runMain_setFaceRunErr (env : Env) (f : String → Int) (opts : List CliOpt)
    (args : List String) :
    runMain opts args (setFaceRunErr env f) = runMain opts args env := by
  unfold runMain
  rcases processOpts defaultConfig opts with r | cfg
  · rfl
  · cases args with
    | nil => rfl
    | cons model images => exact setupAndRun_setFaceRunErr env f cfg model images

lemma setupAndRun_exit (env : Env) (cfg : Config) (model : String) (images : List String) :
    (setupAndRun env cfg model images).1 =
      if (setupAndRun env cfg model images).2.any isFail then 1 else 0 := by
  by_cases h : env.loadModelErr ≠ 0
  · simp [setupAndRun, h, isFail, allocEvents]
  · have hfc := processImages_failConsistent env (effConfig cfg env) images
    rcases hpi : processImages env (effConfig cfg env) images with ⟨evs, r⟩
    rw [hpi] at hfc
    cases r with
    | some c =>
        rcases hfc with ⟨hnone, _⟩ | ⟨hsome, hany⟩
        · exact absurd hnone (by simp)
        · have hc : c = 1 := by simpa using hsome
          subst hc
          simp [setupAndRun, h, hpi, List.any_append, hany]
    | none =>
        rcases hfc with ⟨_, hany⟩ | ⟨hsome, _⟩
        · simp [setupAndRun, h, hpi, List.any_append, hany, isFail,
            probeEvents_no_fail, releaseSeq_no_fail, setupEvents, allocEvents]
        · exact absurd hsome (by simp)

/-- C1 (amended): the run exits with status 1 exactly when a failure was
reported to stderr — every *checked* load/inference/decode failure aborts
the run with status 1 — and the return code of the face-detection inference
run (`vaal_run_model(faces_ctx)`, line 195) has no effect whatsoever on the
run's outcome, because it is overwritten unchecked by the box-retrieval
call at line 196. -/
theorem c1_abort_on_reported_failure (opts : List CliOpt) (args : List String) (env : Env) :
    ((runMain opts args env).1 = if (runMain opts args env).2.any isFail then 1 else 0)
    ∧ (∀ f : String → Int, runMain opts args (setFaceRunErr env f) = runMain opts args env) := by
  refine ⟨?_, fun f => runMain_setFaceRunErr env f opts args⟩
  unfold runMain
  rcases hp : processOpts defaultConfig opts with ⟨c, evs⟩ | cfg
  · rcases processOpts_inl_shape opts defaultConfig c evs hp with ⟨hc, he⟩ | ⟨hc, he⟩ | ⟨s, hc, he⟩ <;>
      subst hc <;> subst he <;> simp [isFail]
  · cases args with
    | nil => simp [isFail]
    | cons model images => exact setupAndRun_exit env cfg model images

/-- Oracle on which the face-detection inference run reports a nonzero
error while every other call succeeds. -/
def envFaceRunFails : Env := { envAllOk with faceRunErr := fun _ => 1 }

/-- C1 (counterexample): with a nonzero error from the face-detection
inference run and every other call succeeding, the process does NOT exit
with failure: it continues to box retrieval (the `getBoxes` call with
capacity 25 is in the trace), reports no error, and exits with status 0 —
contradicting the claim that a face-detection inference failure aborts the
run with exit status 1. -/
theorem c1_face_run_error_not_fatal :
    envFaceRunFails.faceRunErr "img" ≠ 0
    ∧ (runMain [] ["m", "img"] envFaceRunFails).1 = 0
    ∧ Event.getBoxes 1 25 ∈ (runMain [] ["m", "img"] envFaceRunFails).2
    ∧ (runMain [] ["m", "img"] envFaceRunFails).2.any isFail = false := by
  refine ⟨by decide, by decide, by decide, by decide⟩

/-! ## Event-kind bookkeeping for the release / parameter theorems -/

/-- The only event kinds the image loop (lines 176-275) can emit. -/
def isLoopKind : Event → Bool
  | Event.stdoutMsg _ => true
  | Event.fail _ => true
  | Event.queryResolution _ => true
  | Event.loadImage _ _ _ => true
  | Event.runModel _ => true
  | Event.getBoxes _ _ => true
  | Event.getEuler _ => true
  | Event.resultLine _ _ => true
  | _ => false

lemma processBox_kinds (env : Env) (image : String) (w h : Int) (j : Nat) (b : VAALBox) :
    ((processBox env image w h j b).1.all isLoopKind) = true := by
  unfold processBox
  split_ifs <;> simp [isLoopKind]

lemma processBoxes_kinds (env : Env) (image : String) (w h : Int) :
    ∀ (bs : List VAALBox) (j : Nat),
    ((processBoxes env image w h j bs).1.all isLoopKind) = true := by
  intro bs
  induction bs with
  | nil => intro j; simp [processBoxes]
  | cons b rest ih =>
      intro j
      have hb := processBox_kinds env image w h j b
      rcases hbeq : processBox env image w h j b with ⟨evs, r⟩
      rw [hbeq] at hb
      cases r with
      | some c => simpa [processBoxes, hbeq] using hb
      | none =>
          rcases hr : processBoxes env image w h (j + 1) rest with ⟨evs', r'⟩
          have h2 := ih (j + 1)
          rw [hr] at h2
          simp only [processBoxes, hbeq, hr, List.all_append]
          simp_all

lemma processImage_kinds (env : Env) (cfg : Config) (image : String) :
    ((processImage env cfg image).1.all isLoopKind) = true := by
  unfold processImage
  split_ifs with h
  · unfold processImageFace
    split_ifs with h1
    · simp [isLoopKind]
    · have hb := processBoxes_kinds env image (env.resolution image).1
        (env.resolution image).2 (env.faceBoxes image cfg.max_detection) 0
      rcases hr : processBoxes env image (env.resolution image).1 (env.resolution image).2 0
          (env.faceBoxes image cfg.max_detection) with ⟨evs, r⟩
      rw [hr] at hb
      simp [hr, List.all_append, isLoopKind, hb]
  · unfold processImageSingle
    split_ifs <;> simp [isLoopKind]

lemma processImages_kinds (env : Env) (cfg : Config) :
    ∀ imgs : List String, ((processImages env cfg imgs).1.all isLoopKind) = true := by
  intro imgs
  induction imgs with
  | nil => simp [processImages]
  | cons img rest ih =>
      have hi := processImage_kinds env cfg img
      rcases hieq : processImage env cfg img with ⟨evs, r⟩
      rw [hieq] at hi
      cases r with
      | some c => simpa [processImages, hieq] using hi
      | none =>
          rcases hr : processImages env cfg rest with ⟨evs', r'⟩
          rw [hr] at ih
          simp only [processImages, hieq, hr, List.all_append]
          simp_all

lemma loopKind_not_release {e : Event} (h : isLoopKind e = true) : isRelease e = false := by
  cases e <;> simp_all [isLoopKind, isRelease]

lemma loopKind_not_setParam {e : Event} (h : isLoopKind e = true) : isSetParam e = false := by
  cases e <;> simp_all [isLoopKind, isSetParam]

lemma loopKind_not_create {e : Event} (h : isLoopKind e = true) :
    ∀ c, e ≠ Event.createContext c := by
  cases e <;> simp_all [isLoopKind]

lemma all_not_release_of_kinds {evs : List Event} (h : evs.all isLoopKind = true) :
    evs.all (fun e => !isRelease e) = true := by
  rw [List.all_eq_true] at h ⊢
  intro e he
  simp [loopKind_not_release (h e he)]

lemma not_create_of_kinds {evs : List Event} (h : evs.all isLoopKind = true) (c : Nat) :
    Event.createContext c ∉ evs := by
  intro hm
  rw [List.all_eq_true] at h
  have := h _ hm
  simp [isLoopKind] at this

lemma probeEvents_no_release (cfg : Config) (env : Env) :
    (probeEvents cfg env).all (fun e => !isRelease e) = true := by
  unfold probeEvents
  split_ifs <;> simp [isRelease]

lemma effConfig_face (cfg : Config) (env : Env) :
    (effConfig cfg env).face_detect = (cfg.face_detect && env.probeSucceeds) := by
  unfold effConfig
  cases hcf : cfg.face_detect <;> cases hp : env.probeSucceeds <;> simp [hcf, hp]

lemma effConfig_max (cfg : Config) (env : Env) :
    (effConfig cfg env).max_detection = cfg.max_detection := by
  unfold effConfig
  split_ifs <;> rfl

lemma create1_mem_probeEvents (cfg : Config) (env : Env) :
    Event.createContext 1 ∈ probeEvents cfg env ↔ (cfg.face_detect && env.probeSucceeds) = true := by
  unfold probeEvents
  cases hcf : cfg.face_detect <;> cases hp : env.probeSucceeds <;> simp

lemma setupEvents_no_release (cfg : Config) (env : Env) (model : String) :
    (setupEvents cfg env model).all (fun e => !isRelease e) = true := by
  rw [List.all_eq_true]
  intro e he
  rw [setupEvents, List.mem_append, List.mem_append] at he
  rcases he with (he | he) | he
  · rw [allocEvents] at he
    fin_cases he <;> rfl
  · rw [List.mem_singleton] at he
    subst he
    rfl
  · have := probeEvents_no_release cfg env
    rw [List.all_eq_true] at this
    exact this e he

lemma create1_mem_setupEvents (cfg : Config) (env : Env) (model : String) :
    Event.createContext 1 ∈ setupEvents cfg env model ↔
      (cfg.face_detect && env.probeSucceeds) = true := by
  simp [setupEvents, allocEvents, create1_mem_probeEvents]

/-- C2 (amended): resources are released only on the normal-completion exit
path — on any failure exit (status 1) the trace contains no session release
and no buffer free at all — and on normal completion after the pose session
was created, the run ends with the fixed shutdown sequence: the face session
(when it was created) then the pose session are released in reverse order of
acquisition, followed by the three buffers in their *acquisition* order
(boxes, orientations, roi). -/
theorem c2_release_only_on_normal_exit (opts : List CliOpt) (args : List String) (env : Env) :
    ((runMain opts args env).1 = 1 →
        (runMain opts args env).2.all (fun e => !isRelease e) = true)
    ∧ ((runMain opts args env).1 = 0 → Event.createContext 0 ∈ (runMain opts args env).2 →
        ∃ pre face, (runMain opts args env).2 = pre ++ releaseSeq face
          ∧ (face = true ↔ Event.createContext 1 ∈ pre)) := by
  unfold runMain
  rcases hp : processOpts defaultConfig opts with ⟨c, evs⟩ | cfg
  · rcases processOpts_inl_shape opts defaultConfig c evs hp with ⟨hc, he⟩ | ⟨hc, he⟩ | ⟨s, hc, he⟩ <;>
      subst hc <;> subst he <;>
      exact ⟨fun _ => by simp [isRelease], fun _ hm => by simp at hm⟩
  · cases args with
    | nil => exact ⟨fun _ => by simp [isRelease], fun h0 => by simp at h0⟩
    | cons model images =>
        by_cases h : env.loadModelErr ≠ 0
        · constructor
          · intro _
            simp [setupAndRun, h, isRelease, allocEvents]
          · intro h0
            simp [setupAndRun, h] at h0
        · have hfc := processImages_failConsistent env (effConfig cfg env) images
          have hk := processImages_kinds env (effConfig cfg env) images
          rcases hpi : processImages env (effConfig cfg env) images with ⟨evs, r⟩
          rw [hpi] at hfc hk
          cases r with
          | some c =>
              rcases hfc with ⟨hnone, _⟩ | ⟨hsome, _⟩
              · exact absurd hnone (by simp)
              · have hc : c = 1 := by simpa using hsome
                subst hc
                have h2 : evs.all (fun e => !isRelease e) = true :=
                  all_not_release_of_kinds (by simpa using hk)
                constructor
                · intro _
                  simp [setupAndRun, h, hpi, List.all_append, h2,
                    setupEvents_no_release]
                · intro h0
                  simp [setupAndRun, h, hpi] at h0
          | none =>
              constructor
              · intro h1
                simp [setupAndRun, h, hpi] at h1
              · intro _ _
                refine ⟨setupEvents cfg env model ++ evs,
                  (effConfig cfg env).face_detect, ?_, ?_⟩
                · simp [setupAndRun, h, hpi, List.append_assoc]
                · rw [effConfig_face]
                  have hnc := not_create_of_kinds (show evs.all isLoopKind = true by
                    simpa using hk) 1
                  constructor
                  · intro hface
                    simp only [List.mem_append]
                    exact Or.inl ((create1_mem_setupEvents cfg env model).2 hface)
                  · intro hm
                    simp only [List.mem_append] at hm
                    rcases hm with hm | hm
                    · exact (create1_mem_setupEvents cfg env model).1 hm
                    · exact absurd hm hnc

/-- Oracle on which the pose model fails to load. -/
def envModelLoadFails : Env := { envAllOk with loadModelErr := 1 }

/-- C2 (counterexample): when the model load fails, the run takes an early
failure exit (status 1) with the pose session already created and the three
buffers already allocated, yet the trace contains no session release and no
buffer free — the early exit paths leak every acquired resource,
contradicting the claim that every exit path releases them. -/
theorem c2_early_exit_leaks :
    (runMain [] ["m", "img"] envModelLoadFails).1 = 1
    ∧ Event.createContext 0 ∈ (runMain [] ["m", "img"] envModelLoadFails).2
    ∧ Event.allocBuffer "boxes" ∈ (runMain [] ["m", "img"] envModelLoadFails).2
    ∧ (runMain [] ["m", "img"] envModelLoadFails).2.all (fun e => !isRelease e) = true := by
  exact ⟨by decide, by decide, by decide, by decide⟩

/-- C2 (witness for the amended theorem): on a failing run no release
happens, and on a concrete successful two-stage run the trace ends with the
shutdown sequence for `face = true`. -/
theorem c2_release_only_on_normal_exit_witness :
    ((runMain [] ["m", "img"] envModelLoadFails).2.all (fun e => !isRelease e) = true)
    ∧ (∃ pre face, (runMain [] ["m", "img"] envAllOk).2 = pre ++ releaseSeq face
        ∧ (face = true ↔ Event.createContext 1 ∈ pre)) :=
  ⟨(c2_release_only_on_normal_exit [] ["m", "img"] envModelLoadFails).1 (by decide),
   (c2_release_only_on_normal_exit [] ["m", "img"] envAllOk).2 (by decide) (by decide)⟩

lemma setParam_mem_probeEvents (cfg : Config) (env : Env) {e : Event}
    (hm : e ∈ probeEvents cfg env) (hsp : isSetParam e = true) :
    e = Event.setParamI 1 "max_detection" cfg.max_detection
    ∨ e = Event.setParamF 1 "score_threshold" cfg.score_thr
    ∨ e = Event.setParamF 1 "iou_threshold" cfg.iou_thr
    ∨ e = Event.setParamI 1 "normalization" 0 := by
  unfold probeEvents at hm
  split_ifs at hm
  · simp only [List.mem_cons, List.not_mem_nil, or_false] at hm
    rcases hm with h | h | h | h | h | h <;> subst h <;>
      first
        | exact Or.inl rfl
        | exact Or.inr (Or.inl rfl)
        | exact Or.inr (Or.inr (Or.inl rfl))
        | exact Or.inr (Or.inr (Or.inr rfl))
        | simp [isSetParam] at hsp
  · rw [List.mem_singleton] at hm
    subst hm
    simp [isSetParam] at hsp
  · simp at hm

lemma releaseSeq_no_setParam (face : Bool) :
    (releaseSeq face).all (fun e => !isSetParam e) = true := by
  cases face <;> decide

/-- Every parameter-set event a run can emit: the pose session's
normalization (line 156) and the probe block's four face-session
parameters (lines 165-168). -/
lemma setParam_mem_trace (opts : List CliOpt) (args : List String) (env : Env)
    (cfg : Config) (hcfg : processOpts defaultConfig opts = Sum.inr cfg)
    {e : Event} (hsp : isSetParam e = true) (hm : e ∈ (runMain opts args env).2) :
    e = Event.setParamI 0 "normalization" cfg.norm
    ∨ e = Event.setParamI 1 "max_detection" cfg.max_detection
    ∨ e = Event.setParamF 1 "score_threshold" cfg.score_thr
    ∨ e = Event.setParamF 1 "iou_threshold" cfg.iou_thr
    ∨ e = Event.setParamI 1 "normalization" 0 := by
  unfold runMain at hm
  rw [hcfg] at hm
  cases args with
  | nil =>
      rw [List.mem_singleton] at hm
      subst hm
      simp [isSetParam] at hsp
  | cons model images =>
      by_cases h : env.loadModelErr ≠ 0
      · simp only [setupAndRun, if_pos h, allocEvents, List.mem_append, List.mem_cons,
          List.not_mem_nil, or_false, List.mem_singleton] at hm
        rcases hm with (h1 | h1 | h1 | h1 | h1) | h1 <;> subst h1 <;> simp [isSetParam] at hsp
      · have hk := processImages_kinds env (effConfig cfg env) images
        rcases hpi : processImages env (effConfig cfg env) images with ⟨evs, r⟩
        rw [hpi] at hk
        have hevs : e ∈ evs → False := by
          intro hin
          rw [List.all_eq_true] at hk
          have := loopKind_not_setParam (hk e hin)
          rw [this] at hsp
          exact Bool.false_ne_true hsp
        have hsetup : e ∈ setupEvents cfg env model →
            e = Event.setParamI 0 "normalization" cfg.norm
            ∨ e = Event.setParamI 1 "max_detection" cfg.max_detection
            ∨ e = Event.setParamF 1 "score_threshold" cfg.score_thr
            ∨ e = Event.setParamF 1 "iou_threshold" cfg.iou_thr
            ∨ e = Event.setParamI 1 "normalization" 0 := by
          intro hin
          rw [setupEvents, List.mem_append, List.mem_append] at hin
          rcases hin with (hin | hin) | hin
          · rw [allocEvents] at hin
            simp only [List.mem_cons, List.not_mem_nil, or_false] at hin
            rcases hin with h1 | h1 | h1 | h1 | h1 <;> subst h1 <;> simp [isSetParam] at hsp
          · rw [List.mem_singleton] at hin
            exact Or.inl hin
          · exact Or.inr (setParam_mem_probeEvents cfg env hin hsp)
        cases r with
        | some c =>
            simp only [setupAndRun, if_neg h, hpi, List.mem_append] at hm
            rcases hm with hm | hm
            · exact hsetup hm
            · exact absurd hm hevs
        | none =>
            simp only [setupAndRun, if_neg h, hpi, List.mem_append] at hm
            rcases hm with (hm | hm) | hm
            · exact hsetup hm
            · exact absurd hm hevs
            · have := releaseSeq_no_setParam (effConfig cfg env).face_detect
              rw [List.all_eq_true] at this
              have h2 := this e hm
              rw [hsp] at h2
              exact absurd h2 (by decide)

/-- C3: NMS parameters go only to the face-detection session, and
normalization is split as the source has it — every `max_detection`,
`score_threshold` and `iou_threshold` parameter-set event targets session 1
(the face-detection session) with the configured values, never the pose
session; every `normalization` parameter-set event either targets the pose
session with the user-chosen `--norm` value, or targets the face-detection
session with the hard-coded raw value 0 independent of `--norm`. -/
theorem c3_parameter_targets (opts : List CliOpt) (args : List String) (env : Env)
    (cfg : Config) (hcfg : processOpts defaultConfig opts = Sum.inr cfg) :
    (∀ c v, Event.setParamI c "max_detection" v ∈ (runMain opts args env).2 →
        c = 1 ∧ v = cfg.max_detection)
    ∧ (∀ c n v, Event.setParamF c n v ∈ (runMain opts args env).2 →
        c = 1 ∧ ((n = "score_threshold" ∧ v = cfg.score_thr)
          ∨ (n = "iou_threshold" ∧ v = cfg.iou_thr)))
    ∧ (∀ c v, Event.setParamI c "normalization" v ∈ (runMain opts args env).2 →
        (c = 0 ∧ v = cfg.norm) ∨ (c = 1 ∧ v = 0)) := by
  refine ⟨?_, ?_, ?_⟩
  · intro c v hm
    have := setParam_mem_trace opts args env cfg hcfg (by simp [isSetParam]) hm
    rcases this with h1 | h1 | h1 | h1 | h1 <;> simp_all
  · intro c n v hm
    have := setParam_mem_trace opts args env cfg hcfg (by simp [isSetParam]) hm
    rcases this with h1 | h1 | h1 | h1 | h1 <;> simp_all
  · intro c v hm
    have := setParam_mem_trace opts args env cfg hcfg (by simp [isSetParam]) hm
    rcases this with h1 | h1 | h1 | h1 | h1 <;> simp_all

/-- C3 (witness): on a concrete two-stage run, the `max_detection`
parameter-set event in the trace targets the face session with the default
count of 25. -/
theorem c3_parameter_targets_witness :
    (1 : Nat) = 1 ∧ (25 : Int) = defaultConfig.max_detection :=
  (c3_parameter_targets [] ["m", "img"] envAllOk defaultConfig rfl).1 1 25 (by decide)

lemma processOpts_append (cfg : Config) (xs ys : List CliOpt) :
    processOpts cfg (xs ++ ys) =
      match processOpts cfg xs with
      | Sum.inl r => Sum.inl r
      | Sum.inr cfg' => processOpts cfg' ys := by
  induction xs generalizing cfg with
  | nil => rfl
  | cons o rest ih =>
      cases h : applyOpt cfg o with
      | inl r => simp [processOpts, h]
      | inr cfg' => simpa [processOpts, h] using ih cfg'

lemma processImages_no_face_events (env : Env) (cfg : Config)
    (hface : cfg.face_detect = false) :
    ∀ imgs : List String, (processImages env cfg imgs).1.all (fun e => !usesFaceCtx e) = true := by
  intro imgs
  induction imgs with
  | nil => simp [processImages]
  | cons img rest ih =>
      have hi : (processImage env cfg img).1.all (fun e => !usesFaceCtx e) = true := by
        simp only [processImage, hface, Bool.false_eq_true, if_false]
        unfold processImageSingle
        split_ifs <;> simp [usesFaceCtx]
      rcases hieq : processImage env cfg img with ⟨evs, r⟩
      rw [hieq] at hi
      cases r with
      | some c => simpa [processImages, hieq] using hi
      | none =>
          rcases hr : processImages env cfg rest with ⟨evs', r'⟩
          rw [hr] at ih
          simp only [processImages, hieq, hr, List.all_append]
          simp_all

/-- C4: when the face-detection capability probe returns no session while
face detection was requested, the run prints the degraded-mode diagnostic,
never touches the face-detection session (no event of the whole run involves
session 1), exits with the same status as the same invocation with
`--no_detect`, and processes every image through the single-stage (direct
pose) code path. -/
theorem c4_probe_failure_single_stage (opts : List CliOpt) (env : Env)
    (cfg : Config) (model : String) (images : List String)
    (hcfg : processOpts defaultConfig opts = Sum.inr cfg)
    (hface : cfg.face_detect = true) (hprobe : env.probeSucceeds = false)
    (hload : env.loadModelErr = 0) :
    Event.stdoutMsg noFaceDiag ∈ (runMain opts (model :: images) env).2
    ∧ (runMain opts (model :: images) env).2.all (fun e => !usesFaceCtx e) = true
    ∧ (runMain opts (model :: images) env).1
        = (runMain (opts ++ [CliOpt.noDetect]) (model :: images) env).1
    ∧ (∀ img, processImage env (effConfig cfg env) img = processImageSingle env img) := by
  have hcfg2 : effConfig cfg env = { cfg with face_detect := false } := by
    simp [effConfig, hface, hprobe]
  have hface2 : (effConfig cfg env).face_detect = false := by rw [hcfg2]
  have hprobeEv : probeEvents cfg env = [Event.stdoutMsg noFaceDiag] := by
    simp [probeEvents, hface, hprobe]
  have hload' : ¬env.loadModelErr ≠ 0 := by simp [hload]
  have hrun : runMain opts (model :: images) env = setupAndRun env cfg model images := by
    unfold runMain
    rw [hcfg]
  have hk0 := processImages_no_face_events env (effConfig cfg env) hface2 images
  rcases hpi : processImages env (effConfig cfg env) images with ⟨evs, r⟩
  rw [hpi] at hk0
  have hsetup : (setupEvents cfg env model).all (fun e => !usesFaceCtx e) = true := by
    simp [setupEvents, allocEvents, hprobeEv, usesFaceCtx, List.all_append]
  have hrel : (releaseSeq (effConfig cfg env).face_detect).all (fun e => !usesFaceCtx e) = true := by
    rw [hface2]
    decide
  refine ⟨?_, ?_, ?_, ?_⟩
  · rw [hrun]
    cases r <;>
      simp [setupAndRun, hload', hpi, setupEvents, allocEvents, hprobeEv]
  · rw [hrun]
    cases r <;>
      simp [setupAndRun, hload', hpi, List.all_append, hk0, hsetup, hrel]
  · have hopts2 : processOpts defaultConfig (opts ++ [CliOpt.noDetect])
        = Sum.inr { cfg with face_detect := false } := by
      rw [processOpts_append, hcfg]
      rfl
    have hrun2 : runMain (opts ++ [CliOpt.noDetect]) (model :: images) env
        = setupAndRun env { cfg with face_detect := false } model images := by
      unfold runMain
      rw [hopts2]
    have heff2 : effConfig { cfg with face_detect := false } env = effConfig cfg env := by
      rw [hcfg2]
      simp [effConfig]
    rw [hrun, hrun2]
    cases r <;>
      simp [setupAndRun, hload', heff2, hpi]
  · intro img
    simp [processImage, hface2]

/-- Oracle on which the face-detection capability probe fails and everything
else succeeds. -/
def envProbeFails : Env := { envAllOk with probeSucceeds := false }

/-- C4 (witness): concrete probe-failure run — the degraded-mode diagnostic
is printed and the image is processed by the single-stage path. -/
theorem c4_probe_failure_single_stage_witness :
    Event.stdoutMsg noFaceDiag ∈ (runMain [] ["m", "img"] envProbeFails).2
    ∧ processImage envProbeFails (effConfig defaultConfig envProbeFails) "img"
        = processImageSingle envProbeFails "img" :=
  ⟨(c4_probe_failure_single_stage [] envProbeFails defaultConfig "m" ["img"]
      rfl rfl rfl rfl).1,
   (c4_probe_failure_single_stage [] envProbeFails defaultConfig "m" ["img"]
      rfl rfl rfl rfl).2.2.2 "img"⟩

/-- C5: the `-t` and `-u` handlers clamp the parsed value into `[0, 1]` —
a negative input yields 0, an input above 1 yields 1, and an input already
inside `[0, 1]` is stored unchanged. -/
theorem c5_thresholds_clamped (cfg : Config) (v : Rat) :
    applyOpt cfg (CliOpt.threshold v)
      = Sum.inr { cfg with score_thr := if v < 0 then 0 else if 1 < v then 1 else v }
    ∧ applyOpt cfg (CliOpt.iou v)
      = Sum.inr { cfg with iou_thr := if v < 0 then 0 else if 1 < v then 1 else v } := by
  have hclamp : CLAMP v 0 1 = if v < 0 then 0 else if 1 < v then 1 else v := by
    unfold CLAMP MINr MAXr
    split_ifs <;> linarith
  exact ⟨by simp [applyOpt, hclamp], by simp [applyOpt, hclamp]⟩

/-- C6: the `--max_detection` handler floors the parsed value at 1 — any
value ≤ 0 becomes 1, any value ≥ 1 is stored unchanged. -/
theorem c6_max_detection_floor (cfg : Config) (v : Int) :
    applyOpt cfg (CliOpt.maxDetection v)
      = Sum.inr { cfg with max_detection := if v ≤ 0 then 1 else v } := by
  have h : MAX v 1 = if v ≤ 0 then 1 else v := by
    unfold MAX
    split_ifs <;> omega
  simp [applyOpt, h]

/-- C7: an unrecognized `--norm` value makes the run exit with status 1
immediately, reporting an error, with no session created, no model loaded,
no image loaded or processed — regardless of the remaining options and
arguments. -/
theorem c7_unsupported_norm_fails (opts1 opts2 : List CliOpt) (s : String)
    (args : List String) (env : Env) (cfg : Config)
    (hcfg : processOpts defaultConfig opts1 = Sum.inr cfg)
    (hs : parseNorm s = none) :
    (runMain (opts1 ++ CliOpt.norm s :: opts2) args env).1 = 1
    ∧ (runMain (opts1 ++ CliOpt.norm s :: opts2) args env).2.any isFail = true
    ∧ (runMain (opts1 ++ CliOpt.norm s :: opts2) args env).2.all
        (fun e => !isSessionOrImage e) = true := by
  have hfull : processOpts defaultConfig (opts1 ++ CliOpt.norm s :: opts2)
      = Sum.inl (1, [Event.fail ("unsupported image normalization method: " ++ s)]) := by
    rw [processOpts_append, hcfg]
    simp [processOpts, applyOpt, hs]
  unfold runMain
  rw [hfull]
  simp [isFail, isSessionOrImage]

/-- C7 (witness): `--norm bogus` exits 1 with an error and an empty
session/image footprint. -/
theorem c7_unsupported_norm_fails_witness :
    (runMain [CliOpt.norm "bogus"] [] envAllOk).1 = 1
    ∧ (runMain [CliOpt.norm "bogus"] [] envAllOk).2.any isFail = true
    ∧ (runMain [CliOpt.norm "bogus"] [] envAllOk).2.all
        (fun e => !isSessionOrImage e) = true :=
  c7_unsupported_norm_fails [] [] "bogus" [] envAllOk defaultConfig rfl (by decide)

/-- C8: when no positional argument remains after option processing, the
run reports the missing-model error and exits with status 1, with no
session-creation event in the trace. -/
theorem c8_missing_model_fails (opts : List CliOpt) (env : Env) (cfg : Config)
    (hcfg : processOpts defaultConfig opts = Sum.inr cfg) :
    runMain opts [] env = (1, [Event.fail missingModelMsg])
    ∧ ∀ c, Event.createContext c ∉ (runMain opts [] env).2 := by
  have h : runMain opts [] env = (1, [Event.fail missingModelMsg]) := by
    unfold runMain
    rw [hcfg]
  refine ⟨h, ?_⟩
  intro c hm
  rw [h] at hm
  simp at hm

/-- C8 (witness): a run with no arguments at all exits 1 with the
missing-model error and creates no session. -/
theorem c8_missing_model_fails_witness :
    runMain [] [] envAllOk = (1, [Event.fail missingModelMsg])
    ∧ Event.createContext 0 ∉ (runMain [] [] envAllOk).2 :=
  ⟨(c8_missing_model_fails [] envAllOk defaultConfig rfl).1,
   (c8_missing_model_fails [] envAllOk defaultConfig rfl).2 0⟩

/-! ## Per-image decomposition (for the mid-run failure and bound claims) -/

/-- The failure the mid-run claim is about: the image's first load into a
session fails (face-session load in two-stage mode, pose-session load in
single-stage mode). -/
def firstLoadFails (env : Env) (cfg : Config) (img : String) : Prop :=
  (if cfg.face_detect then env.faceLoadErr img else env.poseLoadErr img none) ≠ 0

instance (env : Env) (cfg : Config) (img : String) :
    Decidable (firstLoadFails env cfg img) := by
  unfold firstLoadFails
  infer_instance

lemma processImages_append (env : Env) (cfg : Config) (pre rest : List String)
    (hpre : ∀ p ∈ pre, (processImage env cfg p).2 = none) :
    processImages env cfg (pre ++ rest)
      = ((processImages env cfg pre).1 ++ (processImages env cfg rest).1,
         (processImages env cfg rest).2) := by
  induction pre with
  | nil => simp [processImages]
  | cons p ps ih =>
      have hp := hpre p (by simp)
      rcases hpe : processImage env cfg p with ⟨evs, r⟩
      rw [hpe] at hp
      subst hp
      simp only [List.cons_append, processImages, hpe]
      rw [List.append_eq, ih (fun q hq => hpre q (by simp [hq]))]
      simp [List.append_assoc]

lemma processImage_firstLoadFails (env : Env) (cfg : Config) (img : String)
    (h : firstLoadFails env cfg img) :
    (processImage env cfg img).2 = some 1
    ∧ ∀ q ob, Event.resultLine q ob ∉ (processImage env cfg img).1 := by
  unfold firstLoadFails at h
  by_cases hf : cfg.face_detect = true
  · rw [if_pos hf] at h
    simp only [processImage, hf, if_true]
    unfold processImageFace
    rw [if_pos h]
    exact ⟨rfl, by intro q ob hm; simp at hm⟩
  · rw [if_neg hf] at h
    have hf' : cfg.face_detect = false := by
      cases hcf : cfg.face_detect
      · rfl
      · exact absurd hcf hf
    simp only [processImage, hf', Bool.false_eq_true, if_false]
    unfold processImageSingle
    rw [if_pos h]
    exact ⟨rfl, by intro q ob hm; simp at hm⟩

lemma processBox_resultLine (env : Env) (image : String) (w h : Int) (j : Nat)
    (b : VAALBox) {q : String} {ob : Option Nat}
    (hm : Event.resultLine q ob ∈ (processBox env image w h j b).1) :
    q = image ∧ ob = some j := by
  unfold processBox at hm
  split_ifs at hm <;> simp at hm
  exact ⟨hm.1, hm.2⟩

lemma processBoxes_resultLine (env : Env) (image : String) (w h : Int) :
    ∀ (bs : List VAALBox) (j0 : Nat) {q : String} {ob : Option Nat},
    Event.resultLine q ob ∈ (processBoxes env image w h j0 bs).1 → q = image := by
  intro bs
  induction bs with
  | nil => intro j0 q ob hm; simp [processBoxes] at hm
  | cons b rest ih =>
      intro j0 q ob hm
      rcases hbeq : processBox env image w h j0 b with ⟨evs, r⟩
      cases r with
      | some c =>
          simp only [processBoxes, hbeq] at hm
          have hm' : Event.resultLine q ob ∈ (processBox env image w h j0 b).1 := by
            rw [hbeq]
            exact hm
          exact (processBox_resultLine env image w h j0 b hm').1
      | none =>
          simp only [processBoxes, hbeq, List.mem_append] at hm
          rcases hm with hm | hm
          · have hm' : Event.resultLine q ob ∈ (processBox env image w h j0 b).1 := by
              rw [hbeq]
              exact hm
            exact (processBox_resultLine env image w h j0 b hm').1
          · exact ih (j0 + 1) hm

lemma processImage_resultLine (env : Env) (cfg : Config) (p : String)
    {q : String} {ob : Option Nat}
    (hm : Event.resultLine q ob ∈ (processImage env cfg p).1) : q = p := by
  unfold processImage at hm
  split_ifs at hm
  · unfold processImageFace at hm
    split_ifs at hm
    · simp at hm
    · simp only [List.mem_append] at hm
      rcases hm with (hm | hm) | hm
      · simp at hm
      · simp at hm
      · exact processBoxes_resultLine env p (env.resolution p).1 (env.resolution p).2
          (env.faceBoxes p cfg.max_detection) 0 hm
  · unfold processImageSingle at hm
    split_ifs at hm <;> simp at hm
    exact hm.1

lemma processImages_resultLine (env : Env) (cfg : Config) :
    ∀ (imgs : List String) {q : String} {ob : Option Nat},
    Event.resultLine q ob ∈ (processImages env cfg imgs).1 → q ∈ imgs := by
  intro imgs
  induction imgs with
  | nil => intro q ob hm; simp [processImages] at hm
  | cons img rest ih =>
      intro q ob hm
      rcases hieq : processImage env cfg img with ⟨evs, r⟩
      cases r with
      | some c =>
          simp only [processImages, hieq] at hm
          have hm' : Event.resultLine q ob ∈ (processImage env cfg img).1 := by
            rw [hieq]
            exact hm
          rw [processImage_resultLine env cfg img hm']
          exact List.mem_cons_self img rest
      | none =>
          simp only [processImages, hieq, List.mem_append] at hm
          rcases hm with hm | hm
          · have hm' : Event.resultLine q ob ∈ (processImage env cfg img).1 := by
              rw [hieq]
              exact hm
            rw [processImage_resultLine env cfg img hm']
            exact List.mem_cons_self img rest
          · exact List.mem_cons_of_mem img (ih hm)

lemma probeEvents_no_resultLine (cfg : Config) (env : Env) :
    (probeEvents cfg env).all (fun e => !isResultLine e) = true := by
  unfold probeEvents
  split_ifs <;> simp [isResultLine]

lemma setupEvents_no_resultLine (cfg : Config) (env : Env) (model : String) :
    (setupEvents cfg env model).all (fun e => !isResultLine e) = true := by
  rw [List.all_eq_true]
  intro e he
  rw [setupEvents, List.mem_append, List.mem_append] at he
  rcases he with (he | he) | he
  · rw [allocEvents] at he
    fin_cases he <;> rfl
  · rw [List.mem_singleton] at he
    subst he
    rfl
  · have := probeEvents_no_resultLine cfg env
    rw [List.all_eq_true] at this
    exact this e he

/-- C9: when some image's first load into a session fails mid-run — all
images before it having processed cleanly — the whole run exits with status
1 and the trace contains no result line for any image after the failing
one: no per-image recovery, no retry. -/
theorem c9_midrun_load_failure_stops (opts : List CliOpt) (env : Env) (cfg : Config)
    (model img : String) (pre post : List String)
    (hcfg : processOpts defaultConfig opts = Sum.inr cfg)
    (hload : env.loadModelErr = 0)
    (hpre : ∀ p ∈ pre, (processImage env (effConfig cfg env) p).2 = none)
    (hfail : firstLoadFails env (effConfig cfg env) img)
    (hfresh : ∀ q ∈ post, q ∉ pre) :
    (runMain opts (model :: (pre ++ img :: post)) env).1 = 1
    ∧ ∀ q ∈ post, ∀ ob,
        Event.resultLine q ob ∉ (runMain opts (model :: (pre ++ img :: post)) env).2 := by
  have hload' : ¬env.loadModelErr ≠ 0 := by simp [hload]
  have himg := processImage_firstLoadFails env (effConfig cfg env) img hfail
  rcases hieq : processImage env (effConfig cfg env) img with ⟨evsI, r⟩
  rw [hieq] at himg
  rcases himg with ⟨hr, hnoRes⟩
  have hr' : r = some 1 := by simpa using hr
  subst hr'
  have htail : processImages env (effConfig cfg env) (img :: post) = (evsI, some 1) := by
    simp [processImages, hieq]
  have hsplit := processImages_append env (effConfig cfg env) pre (img :: post) hpre
  rw [htail] at hsplit
  rcases hpres : processImages env (effConfig cfg env) pre with ⟨evsP, rP⟩
  rw [hpres] at hsplit
  have hrun : runMain opts (model :: (pre ++ img :: post)) env
      = (1, setupEvents cfg env model ++ (evsP ++ evsI)) := by
    unfold runMain
    rw [hcfg]
    simp [setupAndRun, hload', hsplit]
  constructor
  · rw [hrun]
  · intro q hq ob hm
    rw [hrun] at hm
    simp only [List.mem_append] at hm
    rcases hm with hm | hm | hm
    · have := setupEvents_no_resultLine cfg env model
      rw [List.all_eq_true] at this
      have h2 := this _ hm
      simp [isResultLine] at h2
    · have hm' : Event.resultLine q ob ∈ (processImages env (effConfig cfg env) pre).1 := by
        rw [hpres]
        exact hm
      exact hfresh q hq (processImages_resultLine env (effConfig cfg env) pre hm')
    · exact hnoRes q ob hm

/-- Oracle on which the face-session image load fails exactly for the
image named "bad" and everything else succeeds. -/
def envC9 : Env := { envAllOk with faceLoadErr := fun s => if s = "bad" then 1 else 0 }

/-- C9 (witness): run over images a, bad, c — image a processes, bad's load
fails, the run exits 1 and no result line for c is emitted. -/
theorem c9_midrun_load_failure_stops_witness :
    (runMain [] ["m", "a", "bad", "c"] envC9).1 = 1
    ∧ Event.resultLine "c" none ∉ (runMain [] ["m", "a", "bad", "c"] envC9).2 :=
  ⟨(c9_midrun_load_failure_stops [] envC9 defaultConfig "m" "bad" ["a"] ["c"]
      rfl rfl (by intro p hp; fin_cases hp; decide) (by decide) (by decide)).1,
   (c9_midrun_load_failure_stops [] envC9 defaultConfig "m" "bad" ["a"] ["c"]
      rfl rfl (by intro p hp; fin_cases hp; decide) (by decide) (by decide)).2
     "c" (by decide) none⟩

/-! ## Box-loop bounds -/

/-- Is the event a box-retrieval call? -/
def isGetBoxes : Event → Bool
  | Event.getBoxes _ _ => true
  | _ => false

lemma processBoxes_resultIdx (env : Env) (image : String) (w h : Int) :
    ∀ (bs : List VAALBox) (j0 : Nat) {q : String} {j : Nat},
    Event.resultLine q (some j) ∈ (processBoxes env image w h j0 bs).1 →
    j < j0 + bs.length := by
  intro bs
  induction bs with
  | nil => intro j0 q j hm; simp [processBoxes] at hm
  | cons b rest ih =>
      intro j0 q j hm
      rcases hbeq : processBox env image w h j0 b with ⟨evs, r⟩
      have hidx : Event.resultLine q (some j) ∈ evs → j < j0 + (b :: rest).length := by
        intro hin
        have hm' : Event.resultLine q (some j) ∈ (processBox env image w h j0 b).1 := by
          rw [hbeq]
          exact hin
        have := (processBox_resultLine env image w h j0 b hm').2
        have hj : j = j0 := by simpa using this
        simp [hj]
      cases r with
      | some c =>
          simp only [processBoxes, hbeq] at hm
          exact hidx hm
      | none =>
          simp only [processBoxes, hbeq, List.mem_append] at hm
          rcases hm with hm | hm
          · exact hidx hm
          · have := ih (j0 + 1) hm
            simp only [List.length_cons]
            omega

lemma processImage_resultIdx (env : Env) (cfg : Config) (image : String)
    {q : String} {j : Nat}
    (hm : Event.resultLine q (some j) ∈ (processImage env cfg image).1) :
    j < (env.faceBoxes image cfg.max_detection).length := by
  unfold processImage at hm
  split_ifs at hm
  · unfold processImageFace at hm
    split_ifs at hm
    · simp at hm
    · simp only [List.mem_append] at hm
      rcases hm with (hm | hm) | hm
      · simp at hm
      · simp at hm
      · have := processBoxes_resultIdx env image (env.resolution image).1
          (env.resolution image).2 (env.faceBoxes image cfg.max_detection) 0 hm
        simpa using this
  · unfold processImageSingle at hm
    split_ifs at hm <;> simp at hm

lemma processImages_resultIdx (env : Env) (cfg : Config) :
    ∀ (imgs : List String) {q : String} {j : Nat},
    Event.resultLine q (some j) ∈ (processImages env cfg imgs).1 →
    j < (env.faceBoxes q cfg.max_detection).length := by
  intro imgs
  induction imgs with
  | nil => intro q j hm; simp [processImages] at hm
  | cons img rest ih =>
      intro q j hm
      rcases hieq : processImage env cfg img with ⟨evs, r⟩
      have hcur : Event.resultLine q (some j) ∈ evs →
          j < (env.faceBoxes q cfg.max_detection).length := by
        intro hin
        have hm' : Event.resultLine q (some j) ∈ (processImage env cfg img).1 := by
          rw [hieq]
          exact hin
        have hq : q = img := processImage_resultLine env cfg img hm'
        subst hq
        exact processImage_resultIdx env cfg q hm'
      cases r with
      | some c =>
          simp only [processImages, hieq] at hm
          exact hcur hm
      | none =>
          simp only [processImages, hieq, List.mem_append] at hm
          rcases hm with hm | hm
          · exact hcur hm
          · exact ih hm

lemma processBox_no_getBoxes (env : Env) (image : String) (w h : Int) (j : Nat)
    (b : VAALBox) : ((processBox env image w h j b).1.all (fun e => !isGetBoxes e)) = true := by
  unfold processBox
  split_ifs <;> simp [isGetBoxes]

lemma processBoxes_no_getBoxes (env : Env) (image : String) (w h : Int) :
    ∀ (bs : List VAALBox) (j0 : Nat),
    ((processBoxes env image w h j0 bs).1.all (fun e => !isGetBoxes e)) = true := by
  intro bs
  induction bs with
  | nil => intro j0; simp [processBoxes]
  | cons b rest ih =>
      intro j0
      have hb := processBox_no_getBoxes env image w h j0 b
      rcases hbeq : processBox env image w h j0 b with ⟨evs, r⟩
      rw [hbeq] at hb
      cases r with
      | some c => simpa [processBoxes, hbeq] using hb
      | none =>
          rcases hr : processBoxes env image w h (j0 + 1) rest with ⟨evs', r'⟩
          have h2 := ih (j0 + 1)
          rw [hr] at h2
          simp only [processBoxes, hbeq, hr, List.all_append]
          simp_all

lemma processImage_getBoxes (env : Env) (cfg : Config) (image : String)
    {c : Nat} {cap : Int}
    (hm : Event.getBoxes c cap ∈ (processImage env cfg image).1) :
    c = 1 ∧ cap = cfg.max_detection := by
  unfold processImage at hm
  split_ifs at hm
  · unfold processImageFace at hm
    split_ifs at hm
    · simp at hm
    · simp only [List.mem_append] at hm
      rcases hm with (hm | hm) | hm
      · simp at hm
      · simp only [List.mem_cons, List.not_mem_nil, or_false] at hm
        rcases hm with hm | hm
        · exact absurd hm (by simp)
        · exact ⟨by injection hm, by injection hm with h1 h2⟩
      · have := processBoxes_no_getBoxes env image (env.resolution image).1
          (env.resolution image).2 (env.faceBoxes image cfg.max_detection) 0
        rw [List.all_eq_true] at this
        have h2 := this _ hm
        simp [isGetBoxes] at h2
  · unfold processImageSingle at hm
    split_ifs at hm <;> simp at hm

lemma processImages_getBoxes (env : Env) (cfg : Config) :
    ∀ (imgs : List String) {c : Nat} {cap : Int},
    Event.getBoxes c cap ∈ (processImages env cfg imgs).1 →
    c = 1 ∧ cap = cfg.max_detection := by
  intro imgs
  induction imgs with
  | nil => intro c cap hm; simp [processImages] at hm
  | cons img rest ih =>
      intro c cap hm
      rcases hieq : processImage env cfg img with ⟨evs, r⟩
      have hcur : Event.getBoxes c cap ∈ evs → c = 1 ∧ cap = cfg.max_detection := by
        intro hin
        have hm' : Event.getBoxes c cap ∈ (processImage env cfg img).1 := by
          rw [hieq]
          exact hin
        exact processImage_getBoxes env cfg img hm'
      cases r with
      | some cc =>
          simp only [processImages, hieq] at hm
          exact hcur hm
      | none =>
          simp only [processImages, hieq, List.mem_append] at hm
          rcases hm with hm | hm
          · exact hcur hm
          · exact ih hm

lemma probeEvents_no_getBoxes (cfg : Config) (env : Env) :
    (probeEvents cfg env).all (fun e => !isGetBoxes e) = true := by
  unfold probeEvents
  split_ifs <;> simp [isGetBoxes]

lemma setupEvents_no_getBoxes (cfg : Config) (env : Env) (model : String) :
    (setupEvents cfg env model).all (fun e => !isGetBoxes e) = true := by
  rw [List.all_eq_true]
  intro e he
  rw [setupEvents, List.mem_append, List.mem_append] at he
  rcases he with (he | he) | he
  · rw [allocEvents] at he
    fin_cases he <;> rfl
  · rw [List.mem_singleton] at he
    subst he
    rfl
  · have := probeEvents_no_getBoxes cfg env
    rw [List.all_eq_true] at this
    exact this e he

lemma releaseSeq_no_getBoxes (face : Bool) :
    (releaseSeq face).all (fun e => !isGetBoxes e) = true := by
  cases face <;> decide

lemma releaseSeq_no_resultLine (face : Bool) :
    (releaseSeq face).all (fun e => !isResultLine e) = true := by
  cases face <;> decide

/-- Decomposition of a full run's trace into its source regions. -/
lemma runMain_trace_cases (opts : List CliOpt) (args : List String) (env : Env)
    (cfg : Config) (hcfg : processOpts defaultConfig opts = Sum.inr cfg)
    {e : Event} (hm : e ∈ (runMain opts args env).2) :
    e = Event.fail missingModelMsg
    ∨ (∃ model, e ∈ allocEvents model)
    ∨ e = Event.fail "failed to load model"
    ∨ (∃ model, e ∈ setupEvents cfg env model)
    ∨ (∃ imgs, e ∈ (processImages env (effConfig cfg env) imgs).1)
    ∨ e ∈ releaseSeq (effConfig cfg env).face_detect := by
  unfold runMain at hm
  rw [hcfg] at hm
  cases args with
  | nil =>
      rw [List.mem_singleton] at hm
      exact Or.inl hm
  | cons model images =>
      by_cases h : env.loadModelErr ≠ 0
      · simp only [setupAndRun, if_pos h, List.mem_append] at hm
        rcases hm with hm | hm
        · exact Or.inr (Or.inl ⟨model, hm⟩)
        · rw [List.mem_singleton] at hm
          exact Or.inr (Or.inr (Or.inl hm))
      · rcases hpi : processImages env (effConfig cfg env) images with ⟨evs, r⟩
        cases r with
        | some c =>
            simp only [setupAndRun, if_neg h, hpi, List.mem_append] at hm
            rcases hm with hm | hm
            · exact Or.inr (Or.inr (Or.inr (Or.inl ⟨model, hm⟩)))
            · refine Or.inr (Or.inr (Or.inr (Or.inr (Or.inl ⟨images, ?_⟩))))
              rw [hpi]
              exact hm
        | none =>
            simp only [setupAndRun, if_neg h, hpi, List.mem_append] at hm
            rcases hm with (hm | hm) | hm
            · exact Or.inr (Or.inr (Or.inr (Or.inl ⟨model, hm⟩)))
            · refine Or.inr (Or.inr (Or.inr (Or.inr (Or.inl ⟨images, ?_⟩))))
              rw [hpi]
              exact hm
            · exact Or.inr (Or.inr (Or.inr (Or.inr (Or.inr hm))))

lemma processBox_none_count (env : Env) (image : String) (w h : Int) (j : Nat)
    (b : VAALBox) {evs : List Event}
    (hbeq : processBox env image w h j b = (evs, none)) :
    evs.countP isResultLine = 1 := by
  unfold processBox at hbeq
  split_ifs at hbeq <;> simp only [Prod.mk.injEq] at hbeq
  · exact absurd hbeq.2 (by simp)
  · exact absurd hbeq.2 (by simp)
  · exact absurd hbeq.2 (by simp)
  · rw [← hbeq.1]
    simp [List.countP_cons, isResultLine]

lemma processBoxes_none_count (env : Env) (image : String) (w h : Int) :
    ∀ (bs : List VAALBox) (j0 : Nat),
    (processBoxes env image w h j0 bs).2 = none →
    (processBoxes env image w h j0 bs).1.countP isResultLine = bs.length := by
  intro bs
  induction bs with
  | nil => intro j0 _; simp [processBoxes]
  | cons b rest ih =>
      intro j0 hnone
      rcases hbeq : processBox env image w h j0 b with ⟨evs, r⟩
      cases r with
      | some c =>
          rw [show processBoxes env image w h j0 (b :: rest) = (evs, some c) by
            simp [processBoxes, hbeq]] at hnone
          simp at hnone
      | none =>
          rcases hr : processBoxes env image w h (j0 + 1) rest with ⟨evs', r'⟩
          have hsplit : processBoxes env image w h j0 (b :: rest) = (evs ++ evs', r') := by
            simp [processBoxes, hbeq, hr]
          rw [hsplit] at hnone ⊢
          have h2 := ih (j0 + 1)
          rw [hr] at h2
          simp only [List.countP_append, List.length_cons]
          rw [processBox_none_count env image w h j0 b hbeq, h2 (by simpa using hnone)]
          omega

/-- C10: the per-image box loop is bounded by the effective max-detection
value — box retrieval is always invoked on the face session with capacity
exactly `max_detection`; assuming the library's contract that it reports at
most that many boxes, every per-box result line carries an index strictly
below `max_detection` (so every `boxes[j]` access is within the allocated
`max_detection` elements); and on a failure-free loop the per-box iteration
count equals exactly the number of boxes the library returned. -/
theorem c10_box_loop_bounded (opts : List CliOpt) (args : List String) (env : Env)
    (cfg : Config) (hcfg : processOpts defaultConfig opts = Sum.inr cfg)
    (hcap : ∀ img, ((env.faceBoxes img cfg.max_detection).length : Int) ≤ cfg.max_detection) :
    (∀ c cap, Event.getBoxes c cap ∈ (runMain opts args env).2 →
        c = 1 ∧ cap = cfg.max_detection)
    ∧ (∀ q j, Event.resultLine q (some j) ∈ (runMain opts args env).2 →
        (j : Int) < cfg.max_detection)
    ∧ (∀ image w h bs j0, (processBoxes env image w h j0 bs).2 = none →
        (processBoxes env image w h j0 bs).1.countP isResultLine = bs.length) := by
  have hpart1 : ∀ (c : Nat) (cap : Int), Event.getBoxes c cap ∈ (runMain opts args env).2 →
      c = 1 ∧ cap = cfg.max_detection := by
    intro c cap hm
    rcases runMain_trace_cases opts args env cfg hcfg hm with
      h1 | ⟨model, h1⟩ | h1 | ⟨model, h1⟩ | ⟨imgs, h1⟩ | h1
    · exact absurd h1 (by simp)
    · simp [allocEvents] at h1
    · exact absurd h1 (by simp)
    · have := setupEvents_no_getBoxes cfg env model
      rw [List.all_eq_true] at this
      have h2 := this _ h1
      simp [isGetBoxes] at h2
    · have := processImages_getBoxes env (effConfig cfg env) imgs h1
      rwa [effConfig_max] at this
    · have := releaseSeq_no_getBoxes (effConfig cfg env).face_detect
      rw [List.all_eq_true] at this
      have h2 := this _ h1
      simp [isGetBoxes] at h2
  have hpart2 : ∀ (q : String) (j : Nat), Event.resultLine q (some j) ∈ (runMain opts args env).2 →
      (j : Int) < cfg.max_detection := by
    intro q j hm
    rcases runMain_trace_cases opts args env cfg hcfg hm with
      h1 | ⟨model, h1⟩ | h1 | ⟨model, h1⟩ | ⟨imgs, h1⟩ | h1
    · exact absurd h1 (by simp)
    · simp [allocEvents] at h1
    · exact absurd h1 (by simp)
    · have := setupEvents_no_resultLine cfg env model
      rw [List.all_eq_true] at this
      have h2 := this _ h1
      simp [isResultLine] at h2
    · have hlt := processImages_resultIdx env (effConfig cfg env) imgs h1
      rw [effConfig_max] at hlt
      have hle := hcap q
      have : (j : Int) < ((env.faceBoxes q cfg.max_detection).length : Int) := by
        exact_mod_cast hlt
      omega
    · have := releaseSeq_no_resultLine (effConfig cfg env).face_detect
      rw [List.all_eq_true] at this
      have h2 := this _ h1
      simp [isResultLine] at h2
  exact ⟨hpart1, hpart2, fun image w h bs j0 hn => processBoxes_none_count env image w h bs j0 hn⟩

/-- C10 (witness): on a concrete run returning one box, the emitted box
index 0 is below the default max-detection value 25. -/
theorem c10_box_loop_bounded_witness : ((0 : Nat) : Int) < defaultConfig.max_detection :=
  (c10_box_loop_bounded [] ["m", "img"] envAllOk defaultConfig rfl
    (by intro img; norm_num [envAllOk, defaultConfig])).2.1 "img" 0 (by decide)

end Headposeimg
